import Mathlib

/-!
Verification of the terminal trivia quiz (`src/main.rs`).

The development shallowly embeds the two cores of the program:

* the question ingestion pipeline (`parse_data`, lines 92-151 of `main.rs`),
  modelled as a step function over the parser's mutable state
  (`data`, `cur_question`, `cur_data`) driven by a list of xml reader events;
  Rust panics (`Option::unwrap` on `None`, the explicit `panic!`) and
  `std::process::exit` are modelled as distinct outcomes of a step;
* the quiz engine (`run_game`, lines 161-224), with rand's Fisher-Yates
  `shuffle` modelled over an injected random oracle, the render/`correct_answer`
  loop, the keypress resolution loop (including the `char::from_digit` panic),
  and the score tally; terminal input is an injected list of events.

Process glue (ctrl-c handler, the source-selection menu, colored printing)
is out of scope, as in the specification; `load_file` and
`get_questions_from_api` are modelled by their error/result shape.
-/

namespace TheQuiz

/-- `struct Question` (main.rs 226-234). -/
structure Question where
  text : String
  answer : String
  wrong_answers : List String
deriving DecidableEq

/-- `Question::new()` (main.rs 236-243). -/
def Question.new : Question :=
  { text := "", answer := "", wrong_answers := [] }

/-- Events delivered by the xml `EventReader` iterator, as consumed by
`parse_data`: only `StartElement` (with its local name), `EndElement`,
`Characters` and `Err` are distinguished by the code; every other event kind
falls into the wildcard arm and is modelled by `otherEvent`.
`err` carries the display text of the reader error. -/
inductive XmlEvent where
  | startElement (name : String)
  | endElement (name : String)
  | characters (s : String)
  | otherEvent
  | err (msg : String)
deriving DecidableEq

/-- The mutable locals of `parse_data` (main.rs 94-96), plus the list of
"unexpected tag" warnings printed so far (tag name, whether closing),
recording the observable calls to `warn_unexpected_tag`. -/
structure ParseState where
  data : List Question
  cur_question : Option Question
  cur_data : Option String
  warnings : List (String × Bool)
deriving DecidableEq

/-- Outcome of processing one event (or a whole event list): either the
updated state, a Rust panic with its message, or `std::process::exit`
with a code after printing `msg`. -/
inductive StepResult where
  | ok (s : ParseState)
  | panicked (msg : String)
  | exited (code : Nat) (msg : String)
deriving DecidableEq

/-- `warn_unexpected_tag` (main.rs 153-159): prints a warning; modelled by
recording it. -/
def warn_unexpected_tag (s : ParseState) (name : String) (closing : Bool) : ParseState :=
  { s with warnings := s.warnings ++ [(name, closing)] }

/-- The three recognized field tag names (main.rs 103, 114). -/
def isFieldTag (n : String) : Bool :=
  n = "prompt" || n = "correctAnswer" || n = "incorrectAnswer"

/-- One iteration of the event loop of `parse_data` (main.rs 98-147). -/
def parseStep (s : ParseState) (e : XmlEvent) : StepResult :=
  match e with
  | XmlEvent.startElement name =>
      -- main.rs 101-108
      if name = "question" then
        StepResult.ok { s with cur_question := some Question.new }
      else if isFieldTag name then
        match s.cur_question with
        | some _ => StepResult.ok { s with cur_data := some "" }
        | none => StepResult.ok (warn_unexpected_tag s name false)
      else
        StepResult.ok (warn_unexpected_tag s name false)
  | XmlEvent.endElement name =>
      -- main.rs 109-130
      if name = "question" then
        match s.cur_question with
        | some q =>
            StepResult.ok { s with data := s.data ++ [q], cur_question := none }
        | none => StepResult.ok (warn_unexpected_tag s "question" true)
      else if isFieldTag name then
        match s.cur_question, s.cur_data with
        | some q, some d =>
            -- main.rs 116-125
            let q2 :=
              if name = "prompt" then { q with text := d }
              else if name = "correctAnswer" then { q with answer := d }
              else { q with wrong_answers := q.wrong_answers ++ [d] }
            StepResult.ok { s with cur_question := some q2, cur_data := none }
        | some _, none =>
            -- main.rs 117: `cur_data.take().unwrap()` with `cur_data == None`
            StepResult.panicked "called Option::unwrap on a None value"
        | none, _ => StepResult.ok (warn_unexpected_tag s name true)
      else
        StepResult.ok s
  | XmlEvent.characters str =>
      -- main.rs 131-140
      match s.cur_data with
      | some d => StepResult.ok { s with cur_data := some (d ++ str) }
      | none => StepResult.panicked "We should not be getting characters here."
  | XmlEvent.otherEvent => StepResult.ok s
  | XmlEvent.err msg =>
      -- main.rs 143-146
      StepResult.exited 1 ("Error: " ++ msg)

/-- The `for e in parser` loop of `parse_data`, stopping at a panic or exit. -/
def parseRun (s : ParseState) : List XmlEvent → StepResult
  | [] => StepResult.ok s
  | e :: es =>
      match parseStep s e with
      | StepResult.ok s2 => parseRun s2 es
      | StepResult.panicked m => StepResult.panicked m
      | StepResult.exited c m => StepResult.exited c m

/-- Initial state of `parse_data` (main.rs 94-96). -/
def initState : ParseState :=
  { data := [], cur_question := none, cur_data := none, warnings := [] }

/-- `parse_data` over a full event list. -/
def parse_data (events : List XmlEvent) : StepResult :=
  parseRun initState events

/-- The question list returned by `parse_data` when it neither panicked nor
exited. -/
def parse_data_questions (events : List XmlEvent) : Option (List Question) :=
  match parse_data events with
  | StepResult.ok s => some s.data
  | _ => none

/-! ## Quiz engine (`run_game`, main.rs 161-224) -/

/-- In-place swap of two positions of a list, as `Vec::swap` does inside
rand's `SliceRandom::shuffle`; out-of-range indices leave the list unchanged
(they never occur in the shuffle loop). -/
def listSwap {α : Type} (l : List α) (i j : Nat) : List α :=
  match l.get? i, l.get? j with
  | some a, some b => (l.set i b).set j a
  | some _, none => l
  | none, _ => l

/-- The Fisher-Yates loop of rand's `shuffle` (called at main.rs 172):
`for i in (1..len).rev() { swap(i, gen_range(0..=i)) }`. The random source is
injected as an oracle `rs`; the draw for step `i` is `rs i % (i + 1)`. -/
def fyLoop (rs : Nat → Nat) : List Nat → Nat → List Nat
  | l, 0 => l
  | l, k + 1 => fyLoop rs (listSwap l (k + 1) (rs (k + 1) % (k + 2))) k

/-- `options.shuffle(&mut rng)` (main.rs 172). -/
def shuffle (rs : Nat → Nat) (l : List Nat) : List Nat :=
  fyLoop rs l (l.length - 1)

/-- The shuffled option order of one round:
`(0..q.wrong_answers.len() + 1).collect()` then `shuffle` (main.rs 171-172). -/
def mkOptions (rs : Nat → Nat) (m : Nat) : List Nat :=
  shuffle rs (List.range (m + 1))

/-- The text displayed for the option with order index `o` (main.rs 174-179):
the answer when `o` equals `wrong_answers.len()`, else `wrong_answers[o]`
(in-range under the permutation invariant, hence the default is never used). -/
def displayText (q : Question) (o : Nat) : String :=
  if o = q.wrong_answers.length then q.answer else q.wrong_answers.getD o ""

/-- One printed option line `"{index+1}: {text}"` (main.rs 175, 178). -/
def optionLine (idx : Nat) (t : String) : String :=
  toString (idx + 1) ++ ": " ++ t

/-- The display loop of one round (main.rs 170-180): walks the shuffled
`options` with positions starting at `idx`, accumulating the printed lines and
the `correct_answer` position (initially `0`, overwritten with the position
whose order index equals `wrong_answers.len()`). -/
def renderRound (q : Question) : List Nat → Nat → List String × Nat → List String × Nat
  | [], _, acc => acc
  | o :: rest, idx, acc =>
      if o = q.wrong_answers.length then
        renderRound q rest (idx + 1) (acc.1 ++ [optionLine idx q.answer], idx)
      else
        renderRound q rest (idx + 1) (acc.1 ++ [optionLine idx (q.wrong_answers.getD o "")], acc.2)

/-- The sequence of lines `renderRound` prints (specification helper used to
state properties of `renderRound`). -/
def renderLines (q : Question) : List Nat → Nat → List String
  | [], _ => []
  | o :: rest, idx => optionLine idx (displayText q o) :: renderLines q rest (idx + 1)

/-- The `correct_answer` accumulator of the display loop in isolation
(specification helper used to state properties of `renderRound`). -/
def findCorrectAux (m : Nat) : List Nat → Nat → Nat → Nat
  | [], _, acc => acc
  | o :: rest, idx, acc => findCorrectAux m rest (idx + 1) (if o = m then idx else acc)

/-- Terminal events seen by the input loop (main.rs 185-205): a key event
carrying a character code, any other event (non-key events and key events with
a non-character code, which never match an option), and a `read()` error
(printed and ignored, main.rs 202-204). -/
inductive InEvent where
  | key (c : Char)
  | otherEvent
  | err
deriving DecidableEq

/-- `char::from_digit(n, 10)` as used at main.rs 191-193: `some` of the digit
character when `n < 10`, else `none` (which the code turns into a panic via
`expect`). -/
def charFromDigit (n : Nat) : Option Char :=
  if n < 10 then some (Char.ofNat (48 + n)) else none

/-- Whether the pressed character `c` is the digit displayed for order index
`o`, i.e. `char::from_digit(o + 1, 10)` succeeds and equals `c`. -/
def keyMatches (c : Char) (o : Nat) : Bool :=
  match charFromDigit (o + 1) with
  | some d => d = c
  | none => false

/-- Outcome of scanning `options` for one pressed character. -/
inductive ScanResult where
  | panicked
  | matched (o : Nat)
  | noMatch
deriving DecidableEq

/-- The `for option in options.clone()` scan for one key event
(main.rs 189-198): converts each order index to its digit character —
panicking via `expect` when `char::from_digit` fails — and matches it against
the pressed character, returning the first matching order index. -/
def scanOptions (c : Char) : List Nat → ScanResult
  | [] => ScanResult.noMatch
  | o :: rest =>
      match charFromDigit (o + 1) with
      | none => ScanResult.panicked
      | some oc => if oc = c then ScanResult.matched o else scanOptions c rest

/-- Outcome of the blocking input loop over a finite event list. -/
inductive ReadResult where
  | answered (o : Nat) (rest : List InEvent)
  | exhausted
  | panicked
deriving DecidableEq

/-- The `'input: loop` of one round (main.rs 184-206): reads events until a
key event matches some option, returning the matched order index and the
events still queued; `exhausted` models the real loop blocking forever once
the injected event list runs out. -/
def readAnswer (options : List Nat) : List InEvent → ReadResult
  | [] => ReadResult.exhausted
  | InEvent.key c :: rest =>
      match scanOptions c options with
      | ScanResult.matched o => ReadResult.answered o rest
      | ScanResult.noMatch => readAnswer options rest
      | ScanResult.panicked => ReadResult.panicked
  | InEvent.otherEvent :: rest => readAnswer options rest
  | InEvent.err :: rest => readAnswer options rest

/-- An event the input loop consumes without answering: a non-key event, a
read error, or a keypress matching no option. -/
def consumedNonMatch (options : List Nat) (e : InEvent) : Prop :=
  e = InEvent.otherEvent ∨ e = InEvent.err
    ∨ ∃ c, e = InEvent.key c ∧ scanOptions c options = ScanResult.noMatch

/-- Outcome of one quiz round. -/
inductive RoundResult where
  | done (wasCorrect : Bool) (rest : List InEvent)
  | stuck
  | panicked
deriving DecidableEq

/-- One iteration of the `for q in questions` loop (main.rs 166-217):
shuffle, render (recording `correct_answer`), read the answer, compare
`answer == correct_answer`. Returns the comparison outcome and the events
left queued for the next round. -/
def runRound (rs : Nat → Nat) (q : Question) (events : List InEvent) : RoundResult :=
  let options := mkOptions rs q.wrong_answers.length
  let correct_answer := (renderRound q options 0 ([], 0)).2
  match readAnswer options events with
  | ReadResult.answered o rest => RoundResult.done (o == correct_answer) rest
  | ReadResult.exhausted => RoundResult.stuck
  | ReadResult.panicked => RoundResult.panicked

/-- Outcome of `run_game`: the final tally, or the point where the loop
blocked on exhausted input / panicked. -/
inductive GameResult where
  | finished (correct incorrect : Nat)
  | blocked (correct incorrect : Nat)
  | panicked
deriving DecidableEq

/-- The question loop of `run_game` (main.rs 166-217), threading the round
index (for the injected per-round random oracle `rng`), the queued input
events, and the two counters `answered_correctly` / `answered_incorrectly`. -/
def runGameAux (rng : Nat → Nat → Nat) :
    List Question → Nat → List InEvent → Nat → Nat → GameResult
  | [], _, _, c, i => GameResult.finished c i
  | q :: qs, r, events, c, i =>
      match runRound (rng r) q events with
      | RoundResult.done true rest => runGameAux rng qs (r + 1) rest (c + 1) i
      | RoundResult.done false rest => runGameAux rng qs (r + 1) rest c (i + 1)
      | RoundResult.stuck => GameResult.blocked c i
      | RoundResult.panicked => GameResult.panicked

/-- `run_game` (main.rs 161-224) with both counters starting at `0`. -/
def runGame (rng : Nat → Nat → Nat) (qs : List Question) (events : List InEvent) : GameResult :=
  runGameAux rng qs 0 events 0 0

/-! ## Process-level model (`main`, `load_file`, `get_questions_from_api`) -/

/-- The two ingestion sources (`get_questions`, main.rs 22-49; the
single-keypress menu itself is interface glue and out of scope). -/
inductive Source where
  | file
  | web
deriving DecidableEq

/-- Shape of the network interaction of `get_questions_from_api`
(main.rs 51-68): the GET may fail, and an obtained response body may fail to
deserialize. -/
inductive NetResult where
  | connErr
  | decodeErr
  | decoded (qs : List Question)
deriving DecidableEq

/-- `get_questions_from_api` (main.rs 51-68): `Except.error` carries the exit
code and printed message of the `std::process::exit(1)` paths. -/
def get_questions_from_api : NetResult → Except (Nat × String) (List Question)
  | NetResult.connErr => Except.error (1, "Error on download")
  | NetResult.decodeErr => Except.error (1, "Error on deserialiation")
  | NetResult.decoded qs => Except.ok qs

/-- `load_file` (main.rs 76-90): the file either exists — yielding the event
stream its reader produces — or does not, in which case the process prints a
message and exits with code 1. -/
def load_file (fs : Option (List XmlEvent)) : Except (Nat × String) (List XmlEvent) :=
  match fs with
  | none => Except.error (1, "questions.xml not found. Exiting.")
  | some evs => Except.ok evs

/-- Observable outcome of the whole process: exit code, number of quiz rounds
run, and the user-facing error message (if the exit came from an error path);
`panic` and `blockedOnInput` are the non-exit outcomes. -/
inductive ProgResult where
  | exit (code : Nat) (roundsRun : Nat) (errMsg : Option String)
  | panic (msg : String)
  | blockedOnInput
deriving DecidableEq

/-- `get_questions` after the source choice (main.rs 22-49, 70-74): either the
question list, or the process-terminating outcome of ingestion. -/
def getQuestionsModel (src : Source) (fs : Option (List XmlEvent)) (net : NetResult) :
    Except ProgResult (List Question) :=
  match src with
  | Source.file =>
      match load_file fs with
      | Except.error cm => Except.error (ProgResult.exit cm.1 0 (some cm.2))
      | Except.ok evs =>
          match parse_data evs with
          | StepResult.ok s => Except.ok s.data
          | StepResult.exited c msg => Except.error (ProgResult.exit c 0 (some msg))
          | StepResult.panicked msg => Except.error (ProgResult.panic msg)
  | Source.web =>
      match get_questions_from_api net with
      | Except.error cm => Except.error (ProgResult.exit cm.1 0 (some cm.2))
      | Except.ok qs => Except.ok qs

/-- `main` (main.rs 12-20): ingest, then run the game; a normal return from
`main` is process exit code 0, after running one round per question. -/
def mainModel (src : Source) (fs : Option (List XmlEvent)) (net : NetResult)
    (rng : Nat → Nat → Nat) (events : List InEvent) : ProgResult :=
  match getQuestionsModel src fs net with
  | Except.error r => r
  | Except.ok qs =>
      match runGame rng qs events with
      | GameResult.finished _ _ => ProgResult.exit 0 qs.length none
      | GameResult.blocked _ _ => ProgResult.blockedOnInput
      | GameResult.panicked => ProgResult.panic "Could not convert option to character."

/-! ## Concrete inputs used by witnesses and counterexamples -/

/-- Random oracle always drawing 0. -/
def constRng : Nat → Nat := fun _ => 0

/-- Per-round random oracle always drawing 0. -/
def constRng2 : Nat → Nat → Nat := fun _ _ => 0

/-- Random oracle drawing `i` at step `i`, which makes the Fisher-Yates loop
swap every position with itself: the identity permutation. -/
def idRng : Nat → Nat := fun i => i

/-- A question with a single (correct) option. -/
def sampleQ : Question :=
  { text := "t", answer := "a", wrong_answers := [] }

/-- A question with one wrong answer. -/
def sampleQ2 : Question :=
  { text := "t", answer := "a", wrong_answers := ["b"] }

/-- A question with nine wrong answers, i.e. ten displayed options. -/
def sampleQ9 : Question :=
  { text := "t", answer := "a",
    wrong_answers := ["w1", "w2", "w3", "w4", "w5", "w6", "w7", "w8", "w9"] }

/-- A parse state with a question in progress that has accumulated fields. -/
def sampleStateInProgress : ParseState :=
  { data := [], cur_question := some { text := "t", answer := "a", wrong_answers := ["b"] },
    cur_data := none, warnings := [] }

/-- A parse state with a question in progress whose answer is still empty. -/
def sampleStateEmptyAnswer : ParseState :=
  { data := [], cur_question := some { text := "Q1", answer := "", wrong_answers := [] },
    cur_data := none, warnings := [] }

/-! ## Helper lemmas -/

/-- Replacing the element at `k` (whose value is `b`) by `a` and putting `b`
in front is a permutation of putting `a` in front. -/
theorem cons_set_perm {α : Type} (l : List α) (k : Nat) (a b : α)
    (h : l.get? k = some b) : (b :: l.set k a).Perm (a :: l) := by
  induction l generalizing k with
  | nil => simp at h
  | cons c t ih =>
    cases k with
    | zero =>
      simp only [List.get?] at h
      injection h with h
      subst h
      exact List.Perm.swap a c t
    | succ m =>
      simp only [List.get?] at h
      have ihm := ih m h
      show (b :: c :: t.set m a).Perm (a :: c :: t)
      exact ((List.Perm.swap c b _).trans (ihm.cons c)).trans (List.Perm.swap a c t)

/-- Swapping the values at two positions is a permutation. -/
theorem set_set_swap_perm {α : Type} (l : List α) (i j : Nat) (a b : α)
    (hi : l.get? i = some a) (hj : l.get? j = some b) :
    ((l.set i b).set j a).Perm l := by
  induction l generalizing i j with
  | nil => simp at hi
  | cons c t ih =>
    cases i with
    | zero =>
      simp only [List.get?] at hi
      injection hi with hi
      subst hi
      cases j with
      | zero =>
        simp only [List.get?] at hj
        injection hj with hj
        subst hj
        exact List.Perm.refl _
      | succ m =>
        simp only [List.get?] at hj
        exact cons_set_perm t m c b hj
    | succ m =>
      cases j with
      | zero =>
        simp only [List.get?] at hj
        injection hj with hj
        subst hj
        simp only [List.get?] at hi
        exact cons_set_perm t m c a hi
      | succ n =>
        simp only [List.get?] at hi hj
        exact (ih m n hi hj).cons c

/-- `listSwap` permutes the list. -/
theorem listSwap_perm {α : Type} (l : List α) (i j : Nat) : (listSwap l i j).Perm l := by
  unfold listSwap
  cases hi : l.get? i with
  | none => exact List.Perm.refl l
  | some a =>
    cases hj : l.get? j with
    | none => exact List.Perm.refl l
    | some b => exact set_set_swap_perm l i j a b hi hj

/-- The Fisher-Yates loop permutes the list, whatever the random oracle. -/
theorem fyLoop_perm (rs : Nat → Nat) (k : Nat) :
    ∀ l : List Nat, (fyLoop rs l k).Perm l := by
  induction k with
  | zero => exact fun l => List.Perm.refl l
  | succ k ih =>
    intro l
    exact (ih _).trans (listSwap_perm l (k + 1) (rs (k + 1) % (k + 2)))

/-- `shuffle` permutes the list. -/
theorem shuffle_perm (rs : Nat → Nat) (l : List Nat) : (shuffle rs l).Perm l :=
  fyLoop_perm rs (l.length - 1) l

/-- The option order of a round is a permutation of `0, ..., m`. -/
theorem mkOptions_perm (rs : Nat → Nat) (m : Nat) :
    (mkOptions rs m).Perm (List.range (m + 1)) :=
  shuffle_perm rs (List.range (m + 1))

/-- The option order has no duplicates. -/
theorem mkOptions_nodup (rs : Nat → Nat) (m : Nat) : (mkOptions rs m).Nodup :=
  (mkOptions_perm rs m).nodup_iff.mpr (List.nodup_range (m + 1))

/-- Membership in the option order is membership in `0, ..., m`. -/
theorem mkOptions_mem_iff (rs : Nat → Nat) (m : Nat) (k : Nat) :
    k ∈ mkOptions rs m ↔ k < m + 1 := by
  rw [(mkOptions_perm rs m).mem_iff]
  exact List.mem_range

/-- The display loop is the printed lines plus the `correct_answer`
accumulator computed separately. -/
theorem renderRound_eq (q : Question) (os : List Nat) :
    ∀ (idx : Nat) (L : List String) (c : Nat),
      renderRound q os idx (L, c)
        = (L ++ renderLines q os idx, findCorrectAux q.wrong_answers.length os idx c) := by
  induction os with
  | nil => intro idx L c; simp [renderRound, renderLines, findCorrectAux]
  | cons o rest ih =>
    intro idx L c
    by_cases ho : o = q.wrong_answers.length
    · simp [renderRound, renderLines, findCorrectAux, ho, ih, displayText, List.append_assoc]
    · simp [renderRound, renderLines, findCorrectAux, ho, ih, displayText, List.append_assoc]

/-- The line printed at position `i` of the display loop. -/
theorem renderLines_get (q : Question) (os : List Nat) :
    ∀ (i : Nat) (o : Nat) (idx : Nat), os.get? i = some o →
      (renderLines q os idx).get? i = some (optionLine (idx + i) (displayText q o)) := by
  induction os with
  | nil => intro i o idx h; simp at h
  | cons hd rest ih =>
    intro i o idx h
    cases i with
    | zero =>
      simp only [List.get?] at h
      injection h with h
      subst h
      simp [renderLines]
    | succ j =>
      simp only [List.get?] at h
      have := ih j o (idx + 1) h
      simp only [renderLines, List.get?]
      rw [this, Nat.add_assoc, Nat.add_comm 1 j]

/-- If `m` does not occur, the `correct_answer` accumulator keeps its initial
value. -/
theorem findCorrectAux_not_mem (m : Nat) (os : List Nat) :
    ∀ (idx acc : Nat), m ∉ os → findCorrectAux m os idx acc = acc := by
  induction os with
  | nil => intro idx acc _; rfl
  | cons o rest ih =>
    intro idx acc h
    have ho : ¬ o = m := fun e => h (e ▸ List.mem_cons_self o rest)
    simp [findCorrectAux, ho, ih _ _ (fun hm => h (List.mem_cons_of_mem o hm))]

/-- If `m` occurs, the `correct_answer` accumulator ends at the last position
holding `m` (independently of the initial accumulator). -/
theorem findCorrectAux_get (m : Nat) (os : List Nat) (hm : m ∈ os) :
    ∃ k, os.get? k = some m ∧ ∀ idx acc, findCorrectAux m os idx acc = idx + k := by
  induction os with
  | nil => simp at hm
  | cons o rest ih =>
    by_cases hr : m ∈ rest
    · obtain ⟨k, hk, hf⟩ := ih hr
      refine ⟨k + 1, by simpa using hk, ?_⟩
      intro idx acc
      show findCorrectAux m rest (idx + 1) (if o = m then idx else acc) = idx + (k + 1)
      rw [hf (idx + 1)]
      omega
    · have ho : o = m := by
        rcases List.mem_cons.mp hm with h | h
        · exact h.symm
        · exact absurd h hr
      refine ⟨0, by simp [ho], ?_⟩
      intro idx acc
      show findCorrectAux m rest (idx + 1) (if o = m then idx else acc) = idx + 0
      rw [if_pos ho, findCorrectAux_not_mem m rest _ _ hr]
      rfl

/-- An in-range `getD` yields an element of the list. -/
theorem getD_mem_of_lt (l : List String) (o : Nat) (h : o < l.length) :
    l.getD o "" ∈ l := by
  induction l generalizing o with
  | nil => simp at h
  | cons a t ih =>
    cases o with
    | zero => simp [List.getD]
    | succ j =>
      have := ih j (Nat.lt_of_succ_lt_succ h)
      simpa [List.getD] using Or.inr this

/-- Scanning never panics when every option's display digit exists. -/
theorem scanOptions_ne_panicked (c : Char) (os : List Nat)
    (h : ∀ o ∈ os, o + 1 < 10) : scanOptions c os ≠ ScanResult.panicked := by
  induction os with
  | nil => simp [scanOptions]
  | cons o rest ih =>
    have ho : o + 1 < 10 := h o (List.mem_cons_self o rest)
    have hrest : ∀ x ∈ rest, x + 1 < 10 := fun x hx => h x (List.mem_cons_of_mem o hx)
    simp only [scanOptions, charFromDigit, if_pos ho]
    by_cases he : Char.ofNat (48 + (o + 1)) = c
    · simp [he]
    · simpa [he] using ih hrest

/-- Scanning panics whenever some option's digit conversion fails and the key
matches none of the options. -/
theorem scanOptions_panics (c : Char) (os : List Nat)
    (hbig : ∃ o ∈ os, 10 ≤ o + 1) (hnone : ∀ o ∈ os, keyMatches c o = false) :
    scanOptions c os = ScanResult.panicked := by
  induction os with
  | nil => simp at hbig
  | cons o rest ih =>
    by_cases ho : o + 1 < 10
    · have hm : keyMatches c o = false := hnone o (List.mem_cons_self o rest)
      simp only [keyMatches, charFromDigit, if_pos ho] at hm
      have hne : ¬ Char.ofNat (48 + (o + 1)) = c := by
        intro he
        rw [decide_eq_false_iff_not] at hm
        exact hm he
      have hbig2 : ∃ x ∈ rest, 10 ≤ x + 1 := by
        rcases hbig with ⟨x, hx, hxx⟩
        rcases List.mem_cons.mp hx with h | h
        · subst h; omega
        · exact ⟨x, h, hxx⟩
      simp only [scanOptions, charFromDigit, if_pos ho, hne, if_neg hne]
      exact ih hbig2 (fun x hx => hnone x (List.mem_cons_of_mem o hx))
    · simp [scanOptions, charFromDigit, ho]

/-- The input loop never panics when every option's display digit exists. -/
theorem readAnswer_ne_panicked (os : List Nat) (h : ∀ o ∈ os, o + 1 < 10) :
    ∀ evs : List InEvent, readAnswer os evs ≠ ReadResult.panicked := by
  intro evs
  induction evs with
  | nil => simp [readAnswer]
  | cons e rest ih =>
    cases e with
    | key c =>
      simp only [readAnswer]
      cases hs : scanOptions c os with
      | panicked => exact absurd hs (scanOptions_ne_panicked c os h)
      | matched o => simp
      | noMatch => exact ih
    | otherEvent => exact ih
    | err => exact ih

/-- The only exit `parseStep` can produce is code 1 (the reader-error path,
main.rs 143-146). -/
theorem parseStep_exited (s : ParseState) (e : XmlEvent) (c : Nat) (msg : String)
    (h : parseStep s e = StepResult.exited c msg) : c = 1 := by
  cases e with
  | startElement name =>
    by_cases hq : name = "question"
    · simp [parseStep, hq] at h
    · by_cases hf : isFieldTag name
      · cases hcq : s.cur_question <;> simp [parseStep, hq, hf, hcq] at h
      · simp [parseStep, hq, hf] at h
  | endElement name =>
    by_cases hq : name = "question"
    · cases hcq : s.cur_question <;> simp [parseStep, hq, hcq] at h
    · by_cases hf : isFieldTag name
      · cases hcq : s.cur_question <;> cases hcd : s.cur_data <;>
          simp [parseStep, hq, hf, hcq, hcd] at h
      · simp [parseStep, hq, hf] at h
  | characters str => cases hcd : s.cur_data <;> simp [parseStep, hcd] at h
  | otherEvent => simp [parseStep] at h
  | err m => simp only [parseStep, StepResult.exited.injEq] at h; exact h.1.symm

/-- The only exit the whole event loop can produce is code 1. -/
theorem parseRun_exited (evs : List XmlEvent) :
    ∀ (s : ParseState) (c : Nat) (msg : String),
      parseRun s evs = StepResult.exited c msg → c = 1 := by
  induction evs with
  | nil => intro s c msg h; simp [parseRun] at h
  | cons e rest ih =>
    intro s c msg h
    simp only [parseRun] at h
    cases hs : parseStep s e with
    | ok s2 => rw [hs] at h; exact ih s2 c msg h
    | panicked m => rw [hs] at h; simp at h
    | exited c2 m2 =>
      rw [hs] at h
      simp only [StepResult.exited.injEq] at h
      have := parseStep_exited s e c2 m2 hs
      omega

/-! ## Claim C1 -/

/-- C1, counterexample: the claim that an unexpected or mismatched closing tag
never crashes ingestion is false when a question is in progress: on the event
sequence `<question>` open followed by a mismatched `</prompt>` close (whose
open tag was never seen), `parse_data` reaches `cur_data.take().unwrap()`
with `cur_data == None` (main.rs 117) and panics. -/
theorem closing_tag_with_question_in_progress_panics :
    parse_data [XmlEvent.startElement "question", XmlEvent.endElement "prompt"]
      = StepResult.panicked "called Option::unwrap on a None value" := by
  decide

/-- C1, amended: an unexpected or mismatched closing tag encountered while no
question is in progress produces at most a non-fatal warning and emits no
question: the step succeeds and leaves the question list, the (absent)
in-progress question and the text buffer unchanged. (When a question is in
progress, a mismatched recognized closing field tag instead panics, see the
counterexample.) -/
theorem closing_tag_outside_question_warns_only (s : ParseState) (name : String)
    (h : s.cur_question = none) :
    ∃ w : ParseState, parseStep s (XmlEvent.endElement name) = StepResult.ok w
      ∧ w.data = s.data ∧ w.cur_question = none ∧ w.cur_data = s.cur_data := by
  by_cases hq : name = "question"
  · refine ⟨warn_unexpected_tag s "question" true, ?_, rfl, h, rfl⟩
    simp [parseStep, hq, h]
  · by_cases hf : isFieldTag name
    · refine ⟨warn_unexpected_tag s name true, ?_, rfl, h, rfl⟩
      simp [parseStep, hq, hf, h]
    · exact ⟨s, by simp [parseStep, hq, hf], rfl, h, rfl⟩

/-- Witness for the amended C1 theorem at a concrete state and tag. -/
theorem closing_tag_outside_question_warns_only_witness :
    ∃ w : ParseState, parseStep initState (XmlEvent.endElement "prompt") = StepResult.ok w
      ∧ w.data = initState.data ∧ w.cur_question = none ∧ w.cur_data = initState.cur_data :=
  closing_tag_outside_question_warns_only initState "prompt" rfl

/-! ## Claim C2 -/

/-- C2, counterexample: the claim fails in two ways. First, skipping a
recognized field tag that arrives with no question in progress does not keep
assembly panic-free: the element's text then arrives with no open buffer and
`parse_data` hits the explicit `panic!` (main.rs 138). Second, an unrecognized
closing tag is skipped silently (main.rs 129) — no "unexpected tag" warning is
produced, as the unchanged (empty) warning list of the final state shows. -/
theorem skipped_tag_text_panics :
    parse_data [XmlEvent.startElement "prompt", XmlEvent.characters "hi"]
      = StepResult.panicked "We should not be getting characters here."
    ∧ parse_data [XmlEvent.endElement "unknownTag"] = StepResult.ok initState := by
  exact ⟨by decide, by decide⟩

/-- C2, amended: the tag event itself is tolerated — a recognized field
opening tag with no question in progress, or an unrecognized opening tag at
any time, produces exactly an "unexpected tag" warning and changes nothing
else, and an unrecognized closing tag is skipped silently (with no warning);
in all three cases the step succeeds and the in-progress question is
unchanged. (Assembly may still panic on a later characters event of a skipped
element, see the counterexample.) -/
theorem unexpected_tag_event_tolerated (s : ParseState) (name : String) :
    (s.cur_question = none → isFieldTag name = true →
       parseStep s (XmlEvent.startElement name)
         = StepResult.ok (warn_unexpected_tag s name false))
    ∧ (name ≠ "question" → isFieldTag name = false →
       parseStep s (XmlEvent.startElement name)
         = StepResult.ok (warn_unexpected_tag s name false))
    ∧ (name ≠ "question" → isFieldTag name = false →
       parseStep s (XmlEvent.endElement name) = StepResult.ok s)
    ∧ ∀ (n : String) (b : Bool),
        (warn_unexpected_tag s n b).cur_question = s.cur_question
        ∧ (warn_unexpected_tag s n b).data = s.data := by
  refine ⟨?_, ?_, ?_, fun n b => ⟨rfl, rfl⟩⟩
  · intro h hf
    have hq : name ≠ "question" := by
      intro e
      rw [e] at hf
      exact absurd hf (by decide)
    simp [parseStep, hq, hf, h]
  · intro hq hf
    simp [parseStep, hq, hf]
  · intro hq hf
    simp [parseStep, hq, hf]

/-- Witness for the amended C2 theorem: a field tag outside any question
warns, and an unrecognized tag warns while the in-progress question is
untouched. -/
theorem unexpected_tag_event_tolerated_witness :
    parseStep initState (XmlEvent.startElement "prompt")
      = StepResult.ok (warn_unexpected_tag initState "prompt" false)
    ∧ parseStep sampleStateInProgress (XmlEvent.startElement "unknownTag")
      = StepResult.ok (warn_unexpected_tag sampleStateInProgress "unknownTag" false)
    ∧ (warn_unexpected_tag sampleStateInProgress "unknownTag" false).cur_question
      = sampleStateInProgress.cur_question :=
  ⟨(unexpected_tag_event_tolerated initState "prompt").1 rfl (by decide),
   (unexpected_tag_event_tolerated sampleStateInProgress "unknownTag").2.1 (by decide) (by decide),
   ((unexpected_tag_event_tolerated sampleStateInProgress "unknownTag").2.2.2 "unknownTag" false).1⟩

/-! ## Claim C3 -/

/-- C3, counterexample: input events queued behind the answering keypress are
not drained. With one single-option question per round, the loop of round one
answers on the first key event and returns the second one still queued
(first conjunct); that leftover keypress is then consumed as the answer of
round two — the game finishes with two answered rounds (second conjunct), and
round two resolves on exactly that leftover event (third conjunct). Under the
claim, the queue would be drained after round one and round two would block. -/
theorem stale_keypress_answers_next_round :
    readAnswer (mkOptions constRng 0) [InEvent.key '1', InEvent.key '1']
      = ReadResult.answered 0 [InEvent.key '1']
    ∧ runGame constRng2 [sampleQ, sampleQ] [InEvent.key '1', InEvent.key '1']
      = GameResult.finished 2 0
    ∧ runRound (constRng2 1) sampleQ [InEvent.key '1'] = RoundResult.done true [] := by
  exact ⟨by decide, by decide, by decide⟩

/-- C3, amended: only the input events queued *before* the answering keypress
are consumed and discarded by the round's input loop (each being a non-key
event, a read error, or a keypress matching no option); the events queued
after the answering keypress are returned unchanged and remain available to
the next round. -/
theorem input_before_answer_discarded (options : List Nat) :
    ∀ (events : List InEvent) (o : Nat) (rest : List InEvent),
      readAnswer options events = ReadResult.answered o rest →
      ∃ pre c, events = pre ++ InEvent.key c :: rest
        ∧ scanOptions c options = ScanResult.matched o
        ∧ ∀ e ∈ pre, consumedNonMatch options e := by
  intro events
  induction events with
  | nil => intro o rest h; simp [readAnswer] at h
  | cons e es ih =>
    intro o rest h
    cases e with
    | key c =>
      simp only [readAnswer] at h
      cases hs : scanOptions c options with
      | matched o2 =>
        rw [hs] at h
        simp only [ReadResult.answered.injEq] at h
        refine ⟨[], c, ?_, ?_, by simp⟩
        · rw [List.nil_append, h.2]
        · rw [hs, h.1]
      | noMatch =>
        rw [hs] at h
        obtain ⟨pre, c2, hpre, hscan, hall⟩ := ih o rest h
        refine ⟨InEvent.key c :: pre, c2, by rw [List.cons_append, hpre], hscan, ?_⟩
        intro e he
        rcases List.mem_cons.mp he with he | he
        · exact he ▸ Or.inr (Or.inr ⟨c, rfl, hs⟩)
        · exact hall e he
      | panicked => rw [hs] at h; simp at h
    | otherEvent =>
      simp only [readAnswer] at h
      obtain ⟨pre, c2, hpre, hscan, hall⟩ := ih o rest h
      refine ⟨InEvent.otherEvent :: pre, c2, by rw [List.cons_append, hpre], hscan, ?_⟩
      intro e he
      rcases List.mem_cons.mp he with he | he
      · exact he ▸ Or.inl rfl
      · exact hall e he
    | err =>
      simp only [readAnswer] at h
      obtain ⟨pre, c2, hpre, hscan, hall⟩ := ih o rest h
      refine ⟨InEvent.err :: pre, c2, by rw [List.cons_append, hpre], hscan, ?_⟩
      intro e he
      rcases List.mem_cons.mp he with he | he
      · exact he ▸ Or.inr (Or.inl rfl)
      · exact hall e he

/-- Witness for the amended C3 theorem: a non-key event and a non-matching
keypress are discarded, the answer resolves on the first matching keypress,
and the event queued behind it is returned untouched. -/
theorem input_before_answer_discarded_witness :
    ∃ pre c, [InEvent.otherEvent, InEvent.key '3', InEvent.key '1', InEvent.key '9']
        = pre ++ InEvent.key c :: [InEvent.key '9']
      ∧ scanOptions c [0] = ScanResult.matched 0
      ∧ ∀ e ∈ pre, consumedNonMatch [0] e :=
  input_before_answer_discarded [0]
    [InEvent.otherEvent, InEvent.key '3', InEvent.key '1', InEvent.key '9'] 0
    [InEvent.key '9'] (by decide)

/-! ## Claim C4 -/

/-- C4, counterexample: the emitted-question invariant "text is non-empty" is
false: the event sequence `<question></question>` emits a question whose text
is the empty string (`cur_question` is pushed as created by `Question::new`,
main.rs 102 and 111). -/
theorem emitted_question_empty_text :
    parse_data_questions [XmlEvent.startElement "question", XmlEvent.endElement "question"]
      = some [{ text := "", answer := "", wrong_answers := [] }]
    ∧ (Question.mk "" "" []).text = "" := by
  exact ⟨by decide, rfl⟩

/-- C4, amended: a `question` closing tag with a question in progress emits
that question into the output list unconditionally — no field is validated, so
a question with an empty `answer` (no `correctAnswer` fragment supplied) is
not rejected, and neither is one with empty `text` (contrary to the claim's
non-empty-text half, see the counterexample). -/
theorem question_close_emits_unconditionally (s : ParseState) (q : Question)
    (h : s.cur_question = some q) :
    parseStep s (XmlEvent.endElement "question")
      = StepResult.ok { s with data := s.data ++ [q], cur_question := none } := by
  simp [parseStep, h]

/-- Witness for the amended C4 theorem: a question with an empty answer is
emitted, not rejected. -/
theorem question_close_emits_unconditionally_witness :
    parseStep sampleStateEmptyAnswer (XmlEvent.endElement "question")
      = StepResult.ok { sampleStateEmptyAnswer with
          data := sampleStateEmptyAnswer.data
            ++ [{ text := "Q1", answer := "", wrong_answers := [] }],
          cur_question := none } :=
  question_close_emits_unconditionally sampleStateEmptyAnswer
    { text := "Q1", answer := "", wrong_answers := [] } rfl

/-! ## Claim C5 -/

/-- C5: for every question list and every input sequence on which the quiz
completes, the final tally satisfies `correct + incorrect` = number of
questions processed, and both counters grow monotonically from their entry
values (non-negativity is inherent in the `Nat` counters); moreover each round
increments exactly one of the two counters by exactly one. -/
theorem scoring_tally_invariant :
    (∀ (rng : Nat → Nat → Nat) (qs : List Question) (r : Nat) (events : List InEvent)
        (c i c2 i2 : Nat),
        runGameAux rng qs r events c i = GameResult.finished c2 i2 →
        c2 + i2 = c + i + qs.length ∧ c ≤ c2 ∧ i ≤ i2)
    ∧ (∀ (rng : Nat → Nat → Nat) (q : Question) (qs : List Question) (r : Nat)
        (events rest : List InEvent) (c i : Nat) (b : Bool),
        runRound (rng r) q events = RoundResult.done b rest →
        runGameAux rng (q :: qs) r events c i
          = runGameAux rng qs (r + 1) rest (if b then c + 1 else c) (if b then i else i + 1)) := by
  constructor
  · intro rng qs
    induction qs with
    | nil =>
      intro r events c i c2 i2 h
      simp only [runGameAux, GameResult.finished.injEq] at h
      simp [h.1, h.2]
    | cons q rest ih =>
      intro r events c i c2 i2 h
      simp only [runGameAux] at h
      cases hr : runRound (rng r) q events with
      | done b rst =>
        rw [hr] at h
        cases b with
        | true =>
          have := ih (r + 1) rst (c + 1) i c2 i2 h
          simp only [List.length_cons]
          omega
        | false =>
          have := ih (r + 1) rst c (i + 1) c2 i2 h
          simp only [List.length_cons]
          omega
      | stuck => rw [hr] at h; simp at h
      | panicked => rw [hr] at h; simp at h
  · intro rng q qs r events rest c i b h
    simp only [runGameAux]
    rw [h]
    cases b <;> simp

/-- Witness for C5: a one-question game answered correctly finishes with
tally 1 + 0 = 1. -/
theorem scoring_tally_invariant_witness :
    runGameAux constRng2 [sampleQ] 0 [InEvent.key '1'] 0 0 = GameResult.finished 1 0
    ∧ (1 + 0 = 0 + 0 + [sampleQ].length ∧ 0 ≤ 1 ∧ 0 ≤ 0) :=
  ⟨by decide,
   scoring_tally_invariant.1 constRng2 [sampleQ] 0 [InEvent.key '1'] 0 0 1 0 (by decide)⟩

/-! ## Claim C6 -/

/-- C6: for every question with `M` wrong answers and any random draws, the
shuffled option order is a permutation of the index set `0..=M`: it has
exactly `M + 1` elements and contains each index of `0..=M` exactly once. -/
theorem options_permutation_of_range (rs : Nat → Nat) (m : Nat) :
    (mkOptions rs m).length = m + 1
    ∧ ∀ k, k < m + 1 → (mkOptions rs m).count k = 1 := by
  refine ⟨(mkOptions_perm rs m).length_eq.trans (List.length_range (m + 1)), ?_⟩
  intro k hk
  exact List.count_eq_one_of_mem (mkOptions_nodup rs m) ((mkOptions_mem_iff rs m k).mpr hk)

/-- Witness for C6 at one wrong answer and a concrete oracle. -/
theorem options_permutation_of_range_witness :
    (mkOptions constRng 1).length = 1 + 1 ∧ (mkOptions constRng 1).count 0 = 1 :=
  ⟨(options_permutation_of_range constRng 1).1,
   (options_permutation_of_range constRng 1).2 0 (by decide)⟩

/-! ## Claim C7 -/

/-- C7: in every round, exactly one display position carries the order index
`wrong_answers.len()`; the display loop records that position as
`correct_answer`; the line rendered at it shows the question's answer text,
and the line rendered at any other position shows the text of one of the
wrong answers — an entry of `wrong_answers`, never the `answer` field. -/
theorem correct_position_unique_and_rendered (rs : Nat → Nat) (q : Question) :
    (mkOptions rs q.wrong_answers.length).count q.wrong_answers.length = 1
    ∧ (mkOptions rs q.wrong_answers.length).get?
        (renderRound q (mkOptions rs q.wrong_answers.length) 0 ([], 0)).2
      = some q.wrong_answers.length
    ∧ (renderRound q (mkOptions rs q.wrong_answers.length) 0 ([], 0)).1.get?
        (renderRound q (mkOptions rs q.wrong_answers.length) 0 ([], 0)).2
      = some (optionLine
          (renderRound q (mkOptions rs q.wrong_answers.length) 0 ([], 0)).2 q.answer)
    ∧ ∀ i o, (mkOptions rs q.wrong_answers.length).get? i = some o →
        i ≠ (renderRound q (mkOptions rs q.wrong_answers.length) 0 ([], 0)).2 →
        o < q.wrong_answers.length
        ∧ (renderRound q (mkOptions rs q.wrong_answers.length) 0 ([], 0)).1.get? i
            = some (optionLine i (q.wrong_answers.getD o ""))
        ∧ q.wrong_answers.getD o "" ∈ q.wrong_answers := by
  set m := q.wrong_answers.length with hm
  set os := mkOptions rs m with hos
  have hnd : os.Nodup := mkOptions_nodup rs m
  have hmem : m ∈ os := (mkOptions_mem_iff rs m m).mpr (Nat.lt_succ_self m)
  obtain ⟨k, hk, hf⟩ := findCorrectAux_get m os hmem
  have hrr : renderRound q os 0 ([], 0)
      = (renderLines q os 0, findCorrectAux m os 0 0) := by
    rw [renderRound_eq q os 0 [] 0, ← hm]
    simp
  have hcp : (renderRound q os 0 ([], 0)).2 = k := by
    rw [hrr, hf 0 0]
    simp
  have hkl : k < os.length := by
    by_contra hge
    rw [List.get?_eq_none.mpr (Nat.le_of_not_lt hge)] at hk
    exact Option.noConfusion hk
  refine ⟨List.count_eq_one_of_mem hnd hmem, ?_, ?_, ?_⟩
  · rw [hcp]; exact hk
  · rw [hcp, hrr]
    have hl := renderLines_get q os k m 0 hk
    rw [Nat.zero_add] at hl
    rw [hl]
    have : displayText q m = q.answer := by
      rw [displayText, ← hm, if_pos rfl]
    rw [this]
  · intro i o hio hne
    rw [hcp] at hne
    have hi : i < os.length := by
      by_contra hge
      rw [List.get?_eq_none.mpr (Nat.le_of_not_lt hge)] at hio
      exact Option.noConfusion hio
    have hom : o ≠ m := by
      intro e
      rw [List.get?_eq_get hi] at hio
      rw [List.get?_eq_get hkl] at hk
      injection hio with hio2
      injection hk with hk2
      have heq : os.get ⟨i, hi⟩ = os.get ⟨k, hkl⟩ := by
        rw [hio2, hk2, e]
      have := List.nodup_iff_injective_get.mp hnd heq
      exact hne (congrArg Fin.val this)
    have hlt : o < m := by
      have homem : o ∈ os := List.get?_mem hio
      have := (mkOptions_mem_iff rs m o).mp homem
      omega
    refine ⟨hlt, ?_, ?_⟩
    · rw [hrr]
      have hl := renderLines_get q os i o 0 hio
      rw [Nat.zero_add] at hl
      rw [hl]
      have : displayText q o = q.wrong_answers.getD o "" := by
        rw [displayText, ← hm, if_neg hom]
      rw [this]
    · exact getD_mem_of_lt q.wrong_answers o (hm ▸ hlt)

/-- Witness for C7: with one wrong answer and a concrete oracle, the correct
option is shuffled to display position 0 and the wrong answer renders at
display position 1. -/
theorem correct_position_unique_and_rendered_witness :
    (mkOptions constRng sampleQ2.wrong_answers.length).count sampleQ2.wrong_answers.length = 1
    ∧ (0 < sampleQ2.wrong_answers.length
       ∧ (renderRound sampleQ2 (mkOptions constRng sampleQ2.wrong_answers.length)
            0 ([], 0)).1.get? 1
          = some (optionLine 1 (sampleQ2.wrong_answers.getD 0 ""))
       ∧ sampleQ2.wrong_answers.getD 0 "" ∈ sampleQ2.wrong_answers) :=
  ⟨(correct_position_unique_and_rendered constRng sampleQ2).1,
   (correct_position_unique_and_rendered constRng sampleQ2).2.2.2 1 0 (by decide) (by decide)⟩

/-! ## Claim C8 -/

/-- C8: the process exits with code 1 — after printing a user-facing message
and before any quiz round — on file-not-found, markup decode error (whose only
possible exit code is 1), network failure, or response-decode failure; and it
exits with code 0 after one round per question on normal completion. -/
theorem exit_codes_spec :
    (∀ (net : NetResult) (rng : Nat → Nat → Nat) (events : List InEvent),
        mainModel Source.file none net rng events
          = ProgResult.exit 1 0 (some "questions.xml not found. Exiting."))
    ∧ (∀ (evs : List XmlEvent) (c : Nat) (msg : String) (net : NetResult)
        (rng : Nat → Nat → Nat) (events : List InEvent),
        parse_data evs = StepResult.exited c msg →
        c = 1 ∧ mainModel Source.file (some evs) net rng events
          = ProgResult.exit 1 0 (some msg))
    ∧ (∀ (fs : Option (List XmlEvent)) (rng : Nat → Nat → Nat) (events : List InEvent),
        mainModel Source.web fs NetResult.connErr rng events
          = ProgResult.exit 1 0 (some "Error on download"))
    ∧ (∀ (fs : Option (List XmlEvent)) (rng : Nat → Nat → Nat) (events : List InEvent),
        mainModel Source.web fs NetResult.decodeErr rng events
          = ProgResult.exit 1 0 (some "Error on deserialiation"))
    ∧ (∀ (src : Source) (fs : Option (List XmlEvent)) (net : NetResult)
        (rng : Nat → Nat → Nat) (events : List InEvent) (qs : List Question) (c i : Nat),
        getQuestionsModel src fs net = Except.ok qs →
        runGame rng qs events = GameResult.finished c i →
        mainModel src fs net rng events = ProgResult.exit 0 qs.length none) := by
  refine ⟨?_, ?_, ?_, ?_, ?_⟩
  · intro net rng events; rfl
  · intro evs c msg net rng events h
    have hc : c = 1 := parseRun_exited evs initState c msg h
    subst hc
    refine ⟨rfl, ?_⟩
    simp [mainModel, getQuestionsModel, load_file, h]
  · intro fs rng events; rfl
  · intro fs rng events; rfl
  · intro src fs net rng events qs c i hq hr
    simp [mainModel, hq, hr]

/-- Witness for C8: a reader error in the file source exits with code 1 and
zero rounds; a decoded 1-question web source that completes exits with code 0
after one round. -/
theorem exit_codes_spec_witness :
    (1 = 1 ∧ mainModel Source.file (some [XmlEvent.err "boom"]) NetResult.connErr constRng2 []
        = ProgResult.exit 1 0 (some "Error: boom"))
    ∧ mainModel Source.web none (NetResult.decoded [sampleQ]) constRng2 [InEvent.key '1']
        = ProgResult.exit 0 [sampleQ].length none :=
  ⟨exit_codes_spec.2.1 [XmlEvent.err "boom"] 1 "Error: boom" NetResult.connErr constRng2 []
      (by decide),
   exit_codes_spec.2.2.2.2 Source.web none (NetResult.decoded [sampleQ]) constRng2
      [InEvent.key '1'] [sampleQ] 1 0 rfl (by decide)⟩

/-! ## Claim C9 -/

/-- C9, counterexample: with 9 wrong answers the first keypress does not
necessarily panic: when the shuffle leaves the options in identity order, the
scan matches the pressed key `1` against the option with order index 0 before
it ever reaches an index whose digit conversion fails, and the round completes
normally. -/
theorem nine_wrong_answers_keypress_no_panic :
    sampleQ9.wrong_answers.length = 9
    ∧ runRound idRng sampleQ9 [InEvent.key '1'] = RoundResult.done false [] := by
  exact ⟨by decide, by decide⟩

/-- C9, amended: the keypress scan converts each option index `o` to the digit
character of `o + 1` and panics when the conversion fails, i.e. when it
reaches an option index of 9 or more. Hence the input loop is panic-free on
every input for questions with at most 8 wrong answers; with 9 or more wrong
answers a keypress panics unless it matches an option placed before the first
too-large index — in particular, a keypress matching no displayed option
always panics (it is not the first keypress in every shuffle order, contrary
to the claim, see the counterexample). -/
theorem keypress_panic_boundary (rs : Nat → Nat) (m : Nat) (c : Char)
    (rest events : List InEvent) :
    (m ≤ 8 → readAnswer (mkOptions rs m) events ≠ ReadResult.panicked)
    ∧ (9 ≤ m → (∀ o ∈ mkOptions rs m, keyMatches c o = false) →
        readAnswer (mkOptions rs m) (InEvent.key c :: rest) = ReadResult.panicked) := by
  constructor
  · intro hm
    apply readAnswer_ne_panicked
    intro o ho
    have := (mkOptions_mem_iff rs m o).mp ho
    omega
  · intro hm hnone
    have hbig : ∃ o ∈ mkOptions rs m, 10 ≤ o + 1 :=
      ⟨9, (mkOptions_mem_iff rs m 9).mpr (by omega), by omega⟩
    have hs := scanOptions_panics c (mkOptions rs m) hbig hnone
    simp [readAnswer, hs]

/-- Witness for the amended C9 theorem: no panic with zero wrong answers; a
non-matching keypress panics with nine wrong answers. -/
theorem keypress_panic_boundary_witness :
    readAnswer (mkOptions constRng 0) [] ≠ ReadResult.panicked
    ∧ readAnswer (mkOptions constRng 9) [InEvent.key 'x'] = ReadResult.panicked :=
  ⟨(keypress_panic_boundary constRng 0 'x' [] []).1 (by decide),
   (keypress_panic_boundary constRng 9 'x' [] [InEvent.key 'x']).2 (by decide) (by decide)⟩

/-! ## Claim C10 -/

/-- C10: a `question` opening tag encountered while a question is already in
progress silently replaces the in-progress question with a fresh empty one:
the accumulated fields are discarded, nothing is emitted into the output list
and no warning is recorded (the result state differs from `s` only in
`cur_question`). -/
theorem question_open_replaces_in_progress (s : ParseState) (q : Question)
    (_h : s.cur_question = some q) :
    parseStep s (XmlEvent.startElement "question")
      = StepResult.ok { s with cur_question := some Question.new } := by
  simp [parseStep]

/-- Witness for C10 at a state holding a partially assembled question. -/
theorem question_open_replaces_in_progress_witness :
    parseStep sampleStateInProgress (XmlEvent.startElement "question")
      = StepResult.ok { sampleStateInProgress with cur_question := some Question.new } :=
  question_open_replaces_in_progress sampleStateInProgress
    { text := "t", answer := "a", wrong_answers := ["b"] } rfl

end TheQuiz
